import Mathlib

/-!
# Verification of the Replit MCP relay protocol core

This file gives a shallow embedding of the bidirectional RPC relay of the
repository and proves the specified properties about it.

The embedded code:

* `WebSocketServer` from `websocket-server.ts` — the Pending-Call Table,
  Connection Registry, Message Router, Heartbeat Monitor and Relay Facade
  (`sendToExtension`).  The class is modelled as an explicit `ServerState`
  record plus one executable `step` function over an alphabet of external
  events (transport events, inbound envelopes, timer expiries, heartbeat
  ticks).  Observable effects (promise settlements, outbound envelopes,
  pings, terminations, thrown errors) are collected as a list of `Output`.
* the Reconnecting Client from `replit-extension/main.js` (`mainStep`) and
  its draft variant `replit-extension-code/src/bridge.ts` (`bridgeStep`).
* the endpoint-selection logic of the `replit_connect` tool from
  `mcp-server.ts` (`replitConnectTarget`).

JSON payloads are opaque to the relay; they are modelled by an uninterpreted
`Value` type (their serialized text).  JavaScript `Map`s are modelled as
insertion-ordered association lists (`Map.set` replaces in place or appends,
iteration is in insertion order).  JavaScript truthiness of optional strings
(`if (!token)`, `if (message.error)`, `message.id && ...`) is modelled as
"present and non-empty".

Timers: `sendToExtension` arms one `setTimeout` per pending entry and every
code path that removes a pending entry (`handleResponse`,
`rejectPendingRequests`) clears that timer in the same synchronous block, so
in the single-threaded event-loop semantics a timer can fire exactly when
its entry is still in the table.  The model therefore guards the
timer-expiry event on entry presence; an expiry event for an absent id is a
no-op (the cleared timer never fires).

`jwt.verify` is external; it is modelled by a parameter
`verify : String → Option String` returning the decoded subject claim on
success and `none` when verification throws.

Two auxiliary (ghost) fields exist purely so that specifications can be
stated; no modelled code path reads them: `Pending.targetWorkspace` records
the `workspaceId` argument of the `sendToExtension` call that created the
entry, and `Conn.registeredAt` records the event time at which
`register_workspace` was handled.  `Pending.action` mirrors the closure
capture of `action` used in the timeout rejection message.

The model covers the running server; process shutdown (`close()`) ends a
trace and is not an event.
-/

/-- Opaque JSON-like payload, uninterpreted by the relay (its serialized
text). -/
abbrev Value := String

/-- One connection's bookkeeping state (`ExtensionConnection` minus the raw
socket handle; `isOpen` models `ws.readyState === WebSocket.OPEN`).
`registeredAt` is ghost state for specifications only. -/
structure Conn where
  workspaceId : String
  userId : Option String
  isAuthenticated : Bool
  lastPing : Nat
  isOpen : Bool
  registeredAt : Option Nat
deriving DecidableEq, Repr

/-- One pending call (`PendingRequest`).  The resolve/reject handles become
`Output.settled` events; the armed timer is implicit (see header).
`targetWorkspace` is ghost state; `action` mirrors the captured `action`
of the timeout closure. -/
structure Pending where
  targetWorkspace : String
  action : String
deriving DecidableEq, Repr

/-- The wire envelope (`BridgeMessage`).  `id = ""` models a missing/falsy
id.  `params` is the opaque payload of outbound calls; `paramsToken` and
`paramsWorkspaceId` are the two fields the router destructures from inbound
`params` (`message.params || {}`). -/
structure BridgeMessage where
  id : String := ""
  action : String
  params : Option Value := none
  paramsToken : Option String := none
  paramsWorkspaceId : Option String := none
  result : Option Value := none
  error : Option String := none
  workspaceId : Option String := none
deriving DecidableEq, Repr

/-- The mutable state of `WebSocketServer`: the two module-level maps,
as insertion-ordered association lists. -/
structure ServerState where
  connections : List (String × Conn)
  pendingRequests : List (String × Pending)
deriving DecidableEq, Repr

/-- How a pending call's promise was settled.  The constructors record the
settlement site: a `response` envelope (resolve, or reject with the
envelope's error), the per-call timeout closure
(`Request timeout: ${action}`), or `rejectPendingRequests` with its reason
string (`Connection closed` / `Connection error` /
`Connection terminated`). -/
inductive Outcome where
  | resolved (result : Option Value)
  | rejectedResponse (e : String)
  | rejectedTimeout (action : String)
  | rejectedConnection (reason : String)
deriving DecidableEq, Repr

/-- Observable effects of a step. -/
inductive Output where
  | settled (id : String) (o : Outcome)
  | sent (connId : String) (msg : BridgeMessage)
  | pinged (connId : String)
  | terminated (connId : String)
  | threw (e : String)
deriving DecidableEq, Repr

/-- External events driving the server. -/
inductive Event where
  | connect (connId : String) (now : Nat)
  | message (connId : String) (msg : BridgeMessage) (now : Nat)
  | pongEvt (connId : String) (now : Nat)
  | closeEvt (connId : String)
  | errorEvt (connId : String)
  | socketDied (connId : String)
  | send (workspaceId action : String) (params : Option Value) (freshId : String)
  | timerFires (id : String)
  | cleanupTick (now : Nat)
deriving DecidableEq, Repr

/-- `Map.get` on an association list (first match, as JS `Map` keys are
unique). -/
def lookupAssoc (l : List (String × α)) (k : String) : Option α :=
  (l.find? (fun p => p.1 == k)).map Prod.snd

/-- `Map.set`: replace in place if the key is present, append otherwise. -/
def setAssoc (l : List (String × α)) (k : String) (v : α) : List (String × α) :=
  if l.any (fun p => p.1 == k) then l.map (fun p => if p.1 == k then (k, v) else p)
  else l ++ [(k, v)]

/-- `Map.delete`. -/
def delAssoc (l : List (String × α)) (k : String) : List (String × α) :=
  l.filter (fun p => p.1 != k)

def lookupConn (s : ServerState) (cid : String) : Option Conn :=
  lookupAssoc s.connections cid

def lookupPending (s : ServerState) (id : String) : Option Pending :=
  lookupAssoc s.pendingRequests id

def updateConn (s : ServerState) (cid : String) (f : Conn → Conn) : ServerState :=
  { s with connections := s.connections.map (fun p => if p.1 == cid then (p.1, f p.2) else p) }

def deleteConn (s : ServerState) (cid : String) : ServerState :=
  { s with connections := delAssoc s.connections cid }

def deletePending (s : ServerState) (id : String) : ServerState :=
  { s with pendingRequests := delAssoc s.pendingRequests id }

/-- The ids currently in the Pending-Call Table. -/
def pendingIds (s : ServerState) : List String :=
  s.pendingRequests.map Prod.fst

/-- `sendToConnection`: drop the message unless the connection is present
and its socket open. -/
def sendToConnection (s : ServerState) (cid : String) (m : BridgeMessage) : List Output :=
  match lookupConn s cid with
  | some c => if c.isOpen then [Output.sent cid m] else []
  | none => []

/-- `sendError`: an `error` envelope.  When the triggering message had no id
the source generates a fresh random id for the envelope; no specified
property observes that id, so the model keeps the (possibly empty)
request id. -/
def sendError (s : ServerState) (cid : String) (err : String) (reqId : String) :
    List Output :=
  sendToConnection s cid { id := reqId, action := "error", error := some err }

/-- `handleAuthenticate`: verify the token via the external hook; on success
mark the record authenticated and ack, on failure reply with an error
envelope.  The source does not close the connection on failure. -/
def handleAuthenticate (verify : String → Option String) (cid : String)
    (msg : BridgeMessage) (s : ServerState) : ServerState × List Output :=
  match lookupConn s cid with
  | none => (s, [])
  | some _ =>
    match msg.paramsToken with
    | none => (s, sendError s cid "No authentication token provided" msg.id)
    | some tok =>
      if tok = "" then (s, sendError s cid "No authentication token provided" msg.id)
      else
        match verify tok with
        | some sub =>
          let s2 := updateConn s cid
            (fun c => { c with userId := some sub, isAuthenticated := true })
          (s2, sendToConnection s2 cid
            { id := msg.id, action := "authenticated", result := some sub })
        | none => (s, sendError s cid "Invalid authentication token" msg.id)

/-- `handleRegisterWorkspace`: requires `isAuthenticated`; binds (or
rebinds) `workspaceId` and acks.  `now` only feeds the ghost
`registeredAt`. -/
def handleRegisterWorkspace (cid : String) (msg : BridgeMessage) (now : Nat)
    (s : ServerState) : ServerState × List Output :=
  match lookupConn s cid with
  | none => (s, [])
  | some c =>
    if !c.isAuthenticated then (s, sendError s cid "Not authenticated" msg.id)
    else
      match msg.paramsWorkspaceId with
      | none => (s, sendError s cid "No workspace ID provided" msg.id)
      | some w =>
        if w = "" then (s, sendError s cid "No workspace ID provided" msg.id)
        else
          let s2 := updateConn s cid
            (fun c => { c with workspaceId := w, registeredAt := some now })
          (s2, sendToConnection s2 cid
            { id := msg.id, action := "workspace_registered", result := some w })

/-- `handleResponse`: settle the pending entry for `message.id`; a missing
entry (already settled or evicted) is a silent no-op.  A truthy `error`
field rejects, otherwise the entry resolves with `result` (so `error = ""`
resolves, matching JS falsiness). -/
def handleResponse (msg : BridgeMessage) (s : ServerState) :
    ServerState × List Output :=
  match lookupPending s msg.id with
  | none => (s, [])
  | some _ =>
    let s2 := deletePending s msg.id
    match msg.error with
    | some e =>
      if e = "" then (s2, [Output.settled msg.id (Outcome.resolved msg.result)])
      else (s2, [Output.settled msg.id (Outcome.rejectedResponse e)])
    | none => (s2, [Output.settled msg.id (Outcome.resolved msg.result)])

/-- `rejectPendingRequests(connectionId, reason)`: the source iterates over
*every* entry of the table, rejecting and deleting each one; the
`connectionId` argument is not used to filter (its own comment calls this a
simplified check). -/
def rejectPendingRequests (reason : String) (s : ServerState) :
    ServerState × List Output :=
  ({ s with pendingRequests := [] },
   s.pendingRequests.map (fun q => Output.settled q.1 (Outcome.rejectedConnection reason)))

/-- `handleMessage`: dispatch an inbound envelope by `action`; an envelope
from an unknown connection is dropped.  The default branch treats any
envelope whose (truthy) id matches a pending call as a response. -/
def handleMessage (verify : String → Option String) (cid : String)
    (msg : BridgeMessage) (now : Nat) (s : ServerState) :
    ServerState × List Output :=
  match lookupConn s cid with
  | none => (s, [])
  | some _ =>
    if msg.action = "authenticate" then handleAuthenticate verify cid msg s
    else if msg.action = "register_workspace" then handleRegisterWorkspace cid msg now s
    else if msg.action = "response" then handleResponse msg s
    else if msg.action = "ping" then
      (s, sendToConnection s cid { id := msg.id, action := "pong" })
    else if msg.id ≠ "" ∧ (lookupPending s msg.id).isSome then handleResponse msg s
    else (s, sendError s cid ("Unknown action: " ++ msg.action) msg.id)

/-- `handleConnection`: insert a fresh unauthenticated record and start the
heartbeat with an initial ping. -/
def handleConnection (cid : String) (now : Nat) (s : ServerState) :
    ServerState × List Output :=
  let c : Conn := { workspaceId := "", userId := none, isAuthenticated := false,
                    lastPing := now, isOpen := true, registeredAt := none }
  ({ s with connections := setAssoc s.connections cid c }, [Output.pinged cid])

/-- `sendToExtension`: resolve the first authenticated connection bound to
`workspaceId` (insertion order); if none exists, throw immediately — no
pending entry is created and no timer armed.  Otherwise create the pending
entry under the fresh request id and write the call envelope. -/
def sendToExtension (w action : String) (params : Option Value) (freshId : String)
    (s : ServerState) : ServerState × List Output :=
  match s.connections.find? (fun p => p.2.workspaceId == w && p.2.isAuthenticated) with
  | none => (s, [Output.threw ("No authenticated extension found for workspace: " ++ w)])
  | some (cid, _) =>
    let entry : Pending := { targetWorkspace := w, action := action }
    let s2 := { s with pendingRequests := setAssoc s.pendingRequests freshId entry }
    (s2, sendToConnection s2 cid
      { id := freshId, action := action, params := params, workspaceId := some w })

/-- The timeout closure of `sendToExtension`: delete the entry and reject
with `Request timeout: ${action}`.  An expiry for an absent id is the
never-firing cleared timer (see header) and does nothing. -/
def onTimeout (id : String) (s : ServerState) : ServerState × List Output :=
  match lookupPending s id with
  | none => (s, [])
  | some p => (deletePending s id, [Output.settled id (Outcome.rejectedTimeout p.action)])

/-- First pass of the cleanup interval over one record: terminate a stale
open connection (`now - lastPing > 60000`, i.e. twice the 30000 ms
interval), ping a fresh open one, and do nothing for an already-closed
socket (it is just collected as dead). -/
def tickOutputs (now : Nat) (p : String × Conn) : List Output :=
  if !p.2.isOpen then []
  else if 60000 < now - p.2.lastPing then [Output.terminated p.1]
  else [Output.pinged p.1]

/-- A record collected into `deadConnections` by the cleanup pass. -/
def isDead (now : Nat) (p : String × Conn) : Bool :=
  !p.2.isOpen || decide (60000 < now - p.2.lastPing)

/-- `startCleanupInterval` body (one 30000 ms tick): classify and
ping/terminate every record, then delete each dead record and call
`rejectPendingRequests` for it — the first such call already empties the
whole table. -/
def cleanupTick (now : Nat) (s : ServerState) : ServerState × List Output :=
  if ((s.connections.filter (isDead now)).map Prod.fst).isEmpty then
    ({ s with connections := s.connections.filter (fun p => !isDead now p) },
     (s.connections.map (tickOutputs now)).flatten)
  else
    ({ connections := s.connections.filter (fun p => !isDead now p),
       pendingRequests := [] },
     (s.connections.map (tickOutputs now)).flatten
       ++ s.pendingRequests.map
           (fun q => Output.settled q.1 (Outcome.rejectedConnection "Connection terminated")))

/-- One event-loop step of the server. -/
def step (verify : String → Option String) (s : ServerState) :
    Event → ServerState × List Output
  | Event.connect cid now => handleConnection cid now s
  | Event.message cid msg now => handleMessage verify cid msg now s
  | Event.pongEvt cid now => (updateConn s cid (fun c => { c with lastPing := now }), [])
  | Event.closeEvt cid => rejectPendingRequests "Connection closed" (deleteConn s cid)
  | Event.errorEvt cid => rejectPendingRequests "Connection error" (deleteConn s cid)
  | Event.socketDied cid => (updateConn s cid (fun c => { c with isOpen := false }), [])
  | Event.send w a params freshId => sendToExtension w a params freshId s
  | Event.timerFires id => onTimeout id s
  | Event.cleanupTick now => cleanupTick now s

/-- Run a trace of events, concatenating the outputs. -/
def run (verify : String → Option String) (s : ServerState) :
    List Event → ServerState × List Output
  | [] => (s, [])
  | e :: es =>
    let r1 := step verify s e
    let r2 := run verify r1.1 es
    (r2.1, r1.2 ++ r2.2)

/-- The records `getActiveWorkspaces` keeps: authenticated with a non-empty
binding, in connection-insertion order. -/
def activeConns (s : ServerState) : List (String × Conn) :=
  s.connections.filter (fun p => p.2.isAuthenticated && p.2.workspaceId != "")

/-- `getActiveWorkspaces`: workspace ids of authenticated records with a
non-empty binding, in connection-insertion order. -/
def getActiveWorkspaces (s : ServerState) : List String :=
  (activeConns s).map (fun p => p.2.workspaceId)

/-- The workspace targeted by the `replit_connect` tool: error when none is
active; an explicit id must be active; an unaddressed call takes the *last*
element of `getActiveWorkspaces` (`activeWorkspaces[activeWorkspaces.length - 1]`). -/
def replitConnectTarget (s : ServerState) (wsId : Option String) : Option String :=
  let active := getActiveWorkspaces s
  if active.isEmpty then none
  else
    match wsId with
    | some w => if active.contains w then some w else none
    | none => active.getLast?

/-! ## The Reconnecting Client

`replit-extension/main.js`: on close, while fewer than 10 reconnect
attempts have been made, a reconnect is scheduled after the *current*
`reconnectDelay`; when that timer fires the attempt counter is bumped and
the delay doubles, capped at 30000 ms.  A successful `open` resets both to
0 and 2000 ms.

`replit-extension-code/src/bridge.ts` (draft variant): `reconnect()`
schedules after a fixed 2000 ms and only bumps the counter; `open` resets
neither counter nor delay. -/

structure ClientState where
  connected : Bool
  reconnectAttempts : Nat
  reconnectDelay : Nat
deriving DecidableEq, Repr

inductive ClientEvent where
  | opened
  | closed
deriving DecidableEq, Repr

inductive ClientOut where
  | scheduled (delayMs : Nat)
  | gaveUp
deriving DecidableEq, Repr

/-- Initial client state (constructor of both classes). -/
def clientInit : ClientState :=
  { connected := false, reconnectAttempts := 0, reconnectDelay := 2000 }

/-- One transition of the `main.js` client.  A `closed` event merges the
close handler with the firing of the timer it schedules: the delay reported
is the pre-update `reconnectDelay` captured by `setTimeout`. -/
def mainStep (s : ClientState) : ClientEvent → ClientState × List ClientOut
  | ClientEvent.opened =>
    ({ connected := true, reconnectAttempts := 0, reconnectDelay := 2000 }, [])
  | ClientEvent.closed =>
    if s.reconnectAttempts < 10 then
      ({ connected := false, reconnectAttempts := s.reconnectAttempts + 1,
         reconnectDelay := min (s.reconnectDelay * 2) 30000 },
       [ClientOut.scheduled s.reconnectDelay])
    else ({ s with connected := false }, [ClientOut.gaveUp])

/-- One transition of the `bridge.ts` client: fixed 2000 ms delay, counter
never reset, silent stop past 10 attempts. -/
def bridgeStep (s : ClientState) : ClientEvent → ClientState × List ClientOut
  | ClientEvent.opened => ({ s with connected := true }, [])
  | ClientEvent.closed =>
    if s.reconnectAttempts < 10 then
      ({ s with connected := false, reconnectAttempts := s.reconnectAttempts + 1 },
       [ClientOut.scheduled 2000])
    else ({ s with connected := false }, [])

def clientRun (stepF : ClientState → ClientEvent → ClientState × List ClientOut)
    (s : ClientState) : List ClientEvent → ClientState × List ClientOut
  | [] => (s, [])
  | e :: es =>
    let r1 := stepF s e
    let r2 := clientRun stepF r1.1 es
    (r2.1, r1.2 ++ r2.2)

/-- The delay used by the `main.js` client on its (k+1)-st consecutive
failed attempt after a reset. -/
def mainDelays : Nat → Nat
  | 0 => 2000
  | n + 1 => min (mainDelays n * 2) 30000

/-- JS truthiness of the optional `error` field of an envelope. -/
def errTruthy : Option String → Bool
  | none => false
  | some e => e != ""

/-! ## Settlement accounting -/

/-- Whether an output is a settlement of the pending call `id`. -/
def isSettleOf (id : String) : Output → Bool
  | Output.settled j _ => j == id
  | _ => false

/-- Number of settlements of `id` among the outputs. -/
def settleCount (id : String) (outs : List Output) : Nat :=
  outs.countP (isSettleOf id)

/-- The fresh request id an event consumes (only `send` does). -/
def sendIdsOf : Event → List String
  | Event.send _ _ _ fid => [fid]
  | _ => []

/-- All fresh request ids a trace consumes. -/
def sendIds (es : List Event) : List String := (es.map sendIdsOf).flatten

/-- Well-formedness: the Pending-Call Table has no duplicate ids. -/
def WF (s : ServerState) : Prop := (pendingIds s).Nodup

/-- The request ids `generateRequestId` supplies along a trace are fresh:
pairwise distinct and absent from the initial table (the spec calls an id
collision a correctness bug, so uniqueness is an assumption of the
process). -/
def FreshIds (s : ServerState) (es : List Event) : Prop :=
  (sendIds es).Nodup ∧ ∀ id ∈ sendIds es, id ∉ pendingIds s

instance : DecidablePred WF :=
  fun s => decidable_of_iff ((pendingIds s).Nodup) Iff.rfl

instance (s : ServerState) (es : List Event) : Decidable (FreshIds s es) :=
  decidable_of_iff ((sendIds es).Nodup ∧ ∀ id ∈ sendIds es, id ∉ pendingIds s) Iff.rfl

/-! ## A taxonomy of steps, as seen by the Pending-Call Table

Every step of the server either leaves the table untouched and settles
nothing (`quiet`), settles exactly one present entry and deletes it
(`one`), settles every present entry and empties the table (`evictAll`),
or inserts one fresh entry and settles nothing (`add`). -/

inductive StepCase (news : List String) (s : ServerState) :
    ServerState × List Output → Prop
  | quiet (s' : ServerState) (outs : List Output)
      (hp : s'.pendingRequests = s.pendingRequests)
      (ho : ∀ id o, Output.settled id o ∉ outs) :
      StepCase news s (s', outs)
  | one (s' : ServerState) (id : String) (o : Outcome)
      (hmem : id ∈ pendingIds s)
      (hp : s'.pendingRequests = delAssoc s.pendingRequests id) :
      StepCase news s (s', [Output.settled id o])
  | evictAll (s' : ServerState) (pre : List Output) (reason : String)
      (hp : s'.pendingRequests = [])
      (hpre : ∀ id o, Output.settled id o ∉ pre) :
      StepCase news s
        (s', pre ++ s.pendingRequests.map
              (fun q => Output.settled q.1 (Outcome.rejectedConnection reason)))
  | add (s' : ServerState) (outs : List Output) (fid : String) (entry : Pending)
      (hfid : fid ∈ news)
      (hp : s'.pendingRequests = setAssoc s.pendingRequests fid entry)
      (ho : ∀ id o, Output.settled id o ∉ outs) :
      StepCase news s (s', outs)

/-! ## Concrete fixtures used by witnesses and counterexamples -/

/-- A concrete stand-in for the external `jwt.verify` hook. -/
def verifyDemo : String → Option String :=
  fun t => if t = "tok-1" then some "user-1" else none

def connA : Conn :=
  { workspaceId := "ws-a", userId := some "user-1", isAuthenticated := true,
    lastPing := 0, isOpen := true, registeredAt := some 1 }

def connB : Conn :=
  { workspaceId := "ws-b", userId := some "user-2", isAuthenticated := true,
    lastPing := 0, isOpen := true, registeredAt := some 2 }

def connU : Conn :=
  { workspaceId := "", userId := none, isAuthenticated := false,
    lastPing := 0, isOpen := true, registeredAt := none }

def pA : Pending := { targetWorkspace := "ws-a", action := "echo" }

def pB : Pending := { targetWorkspace := "ws-b", action := "echo" }

/-- Two authenticated, registered, live connections and one pending call
against each of their workspaces. -/
def sTwo : ServerState :=
  { connections := [("A", connA), ("B", connB)],
    pendingRequests := [("p1", pA), ("p2", pB)] }

def sEmpty : ServerState := { connections := [], pendingRequests := [] }

/-- One registered but unauthenticated connection, plus a pending call. -/
def sUnauth : ServerState :=
  { connections := [("U", connU)], pendingRequests := [("p1", pA)] }

def sOneUnauth : ServerState :=
  { connections := [("A", connU)], pendingRequests := [] }

def badAuthMsg : BridgeMessage :=
  { id := "m1", action := "authenticate", paramsToken := some "bad-token" }

def bogusMsg : BridgeMessage :=
  { id := "p1", action := "bogus", result := some "42" }

/-- A full happy-path trace: connect, authenticate, register, issue a call,
answer it, a late timer expiry for the already-settled call, close. -/
def demoTrace : List Event :=
  [Event.connect "A" 0,
   Event.message "A" { id := "m1", action := "authenticate", paramsToken := some "tok-1" } 1,
   Event.message "A" { id := "m2", action := "register_workspace", paramsWorkspaceId := some "ws-a" } 2,
   Event.send "ws-a" "echo" (some "x") "r1",
   Event.message "A" { id := "r1", action := "response", result := some "x" } 3,
   Event.timerFires "r1",
   Event.closeEvt "A"]

/-- A trace in which registration order differs from connection-insertion
order: B registers first (t=10) although it connected second, then A
registers (t=20). -/
def crossTrace : List Event :=
  [Event.connect "A" 0, Event.connect "B" 1,
   Event.message "A" { id := "a1", action := "authenticate", paramsToken := some "tok-1" } 2,
   Event.message "B" { id := "a2", action := "authenticate", paramsToken := some "tok-1" } 3,
   Event.message "B" { id := "g1", action := "register_workspace", paramsWorkspaceId := some "E1" } 10,
   Event.message "A" { id := "g2", action := "register_workspace", paramsWorkspaceId := some "E2" } 20]

def sCross : ServerState := (run verifyDemo sEmpty crossTrace).1

def connAuthNoWs : Conn :=
  { workspaceId := "", userId := some "user-1", isAuthenticated := true,
    lastPing := 0, isOpen := true, registeredAt := none }

def sAuthNoWs : ServerState :=
  { connections := [("A", connAuthNoWs)], pendingRequests := [] }

def regMsgA : BridgeMessage :=
  { id := "m2", action := "register_workspace", paramsWorkspaceId := some "ws-a" }

def regMsgB : BridgeMessage :=
  { id := "m3", action := "register_workspace", paramsWorkspaceId := some "ws-b" }

/-- Registration timestamp used by the selection specification (ghost). -/
def regTime (p : String × Conn) : Nat := p.2.registeredAt.getD 0


theorem settleCount_append (id : String) (l1 l2 : List Output) :
    settleCount id (l1 ++ l2) = settleCount id l1 + settleCount id l2 :=
  List.countP_append _ _ _

theorem settleCount_eq_zero {id : String} {l : List Output}
    (h : ∀ o, Output.settled id o ∉ l) : settleCount id l = 0 := by
  rw [settleCount, List.countP_eq_zero]
  intro a ha
  cases a with
  | settled j o =>
    simp only [isSettleOf, beq_iff_eq]
    intro hj
    exact h o (hj ▸ ha)
  | sent c m => simp [isSettleOf]
  | pinged c => simp [isSettleOf]
  | terminated c => simp [isSettleOf]
  | threw e => simp [isSettleOf]

theorem settled_mem_of_settleCount_pos {id : String} {l : List Output}
    (h : 0 < settleCount id l) : ∃ o, Output.settled id o ∈ l := by
  rw [settleCount, List.countP_pos_iff] at h
  obtain ⟨a, ha, hp⟩ := h
  cases a with
  | settled j o =>
    simp only [isSettleOf, beq_iff_eq] at hp
    exact ⟨o, hp ▸ ha⟩
  | sent c m => simp [isSettleOf] at hp
  | pinged c => simp [isSettleOf] at hp
  | terminated c => simp [isSettleOf] at hp
  | threw e => simp [isSettleOf] at hp

/-! ## Association-list facts -/

theorem delAssoc_fst_mem {α : Type} (l : List (String × α)) (k j : String) :
    j ∈ (delAssoc l k).map Prod.fst ↔ j ∈ l.map Prod.fst ∧ j ≠ k := by
  simp only [delAssoc, List.mem_map, List.mem_filter, bne_iff_ne, ne_eq]
  constructor
  · rintro ⟨p, ⟨hp, hne⟩, rfl⟩
    exact ⟨⟨p, hp, rfl⟩, hne⟩
  · rintro ⟨⟨p, hp, rfl⟩, hne⟩
    exact ⟨p, ⟨hp, hne⟩, rfl⟩

theorem delAssoc_fst_nodup {α : Type} (l : List (String × α)) (k : String)
    (h : (l.map Prod.fst).Nodup) : ((delAssoc l k).map Prod.fst).Nodup :=
  ((List.filter_sublist l).map Prod.fst).nodup h

theorem setAssoc_fst {α : Type} (l : List (String × α)) (k : String) (v : α) :
    (setAssoc l k v).map Prod.fst
      = if l.any (fun p => p.1 == k) then l.map Prod.fst else l.map Prod.fst ++ [k] := by
  by_cases h : l.any (fun p => p.1 == k)
  · simp only [setAssoc, h, if_true, List.map_map]
    apply List.map_congr_left
    intro p _
    by_cases hp : p.1 = k
    · simp [Function.comp, hp]
    · simp [Function.comp, hp]
  · simp [setAssoc, h]

theorem lookupAssoc_cons {α : Type} (p : String × α) (t : List (String × α)) (k : String) :
    lookupAssoc (p :: t) k = if p.1 == k then some p.2 else lookupAssoc t k := by
  simp only [lookupAssoc, List.find?]
  cases hb : (p.1 == k) <;> simp [hb]

theorem lookupAssoc_isSome_iff {α : Type} (l : List (String × α)) (k : String) :
    (lookupAssoc l k).isSome ↔ k ∈ l.map Prod.fst := by
  induction l with
  | nil => simp [lookupAssoc]
  | cons p t ih =>
    rw [lookupAssoc_cons]
    by_cases h : p.1 = k
    · simp [h]
    · simp [h, ih, Ne.symm h]

theorem lookupAssoc_none_iff {α : Type} (l : List (String × α)) (k : String) :
    lookupAssoc l k = none ↔ k ∉ l.map Prod.fst := by
  rw [← lookupAssoc_isSome_iff, Option.not_isSome_iff_eq_none]

theorem mem_fst_of_lookupAssoc_some {α : Type} {l : List (String × α)} {k : String}
    {v : α} (h : lookupAssoc l k = some v) : k ∈ l.map Prod.fst := by
  rw [← lookupAssoc_isSome_iff, h]
  rfl

theorem lookupPending_isSome_iff (s : ServerState) (id : String) :
    (lookupPending s id).isSome ↔ id ∈ pendingIds s :=
  lookupAssoc_isSome_iff _ _

theorem lookupPending_none_iff (s : ServerState) (id : String) :
    lookupPending s id = none ↔ id ∉ pendingIds s :=
  lookupAssoc_none_iff _ _

theorem quiet_case_of (news : List String) (s : ServerState)
    (r : ServerState × List Output)
    (hp : r.1.pendingRequests = s.pendingRequests)
    (ho : ∀ id o, Output.settled id o ∉ r.2) : StepCase news s r := by
  cases r with
  | mk a b => exact StepCase.quiet a b hp ho

theorem settled_not_mem_sendToConnection (s : ServerState) (cid : String)
    (m : BridgeMessage) (id : String) (o : Outcome) :
    Output.settled id o ∉ sendToConnection s cid m := by
  unfold sendToConnection
  cases lookupConn s cid with
  | none => simp
  | some c => cases hc : c.isOpen <;> simp [hc]

theorem settled_not_mem_sendError (s : ServerState) (cid err reqId : String)
    (id : String) (o : Outcome) : Output.settled id o ∉ sendError s cid err reqId :=
  settled_not_mem_sendToConnection _ _ _ _ _

theorem settled_not_mem_tickOutputs (now : Nat) (p : String × Conn)
    (id : String) (o : Outcome) : Output.settled id o ∉ tickOutputs now p := by
  unfold tickOutputs
  cases h1 : p.2.isOpen <;> by_cases h2 : 60000 < now - p.2.lastPing <;> simp [h1, h2]

theorem settled_not_mem_tickFlatten (now : Nat) (l : List (String × Conn))
    (id : String) (o : Outcome) :
    Output.settled id o ∉ (l.map (tickOutputs now)).flatten := by
  intro h
  rw [List.mem_flatten] at h
  obtain ⟨out, hout, hmem⟩ := h
  rw [List.mem_map] at hout
  obtain ⟨p, hp, rfl⟩ := hout
  exact settled_not_mem_tickOutputs now p id o hmem

theorem handleAuthenticate_pending (verify : String → Option String)
    (cid : String) (msg : BridgeMessage) (s : ServerState) :
    (handleAuthenticate verify cid msg s).1.pendingRequests = s.pendingRequests := by
  unfold handleAuthenticate
  (repeat' split) <;> rfl

theorem handleAuthenticate_no_settled (verify : String → Option String)
    (cid : String) (msg : BridgeMessage) (s : ServerState) (id : String) (o : Outcome) :
    Output.settled id o ∉ (handleAuthenticate verify cid msg s).2 := by
  unfold handleAuthenticate
  (repeat' split) <;>
    solve
      | simp
      | exact settled_not_mem_sendError _ _ _ _ _ _
      | exact settled_not_mem_sendToConnection _ _ _ _ _

theorem handleRegisterWorkspace_pending (cid : String) (msg : BridgeMessage)
    (now : Nat) (s : ServerState) :
    (handleRegisterWorkspace cid msg now s).1.pendingRequests = s.pendingRequests := by
  unfold handleRegisterWorkspace
  (repeat' split) <;> rfl

theorem handleRegisterWorkspace_no_settled (cid : String) (msg : BridgeMessage)
    (now : Nat) (s : ServerState) (id : String) (o : Outcome) :
    Output.settled id o ∉ (handleRegisterWorkspace cid msg now s).2 := by
  unfold handleRegisterWorkspace
  (repeat' split) <;>
    solve
      | simp
      | exact settled_not_mem_sendError _ _ _ _ _ _
      | exact settled_not_mem_sendToConnection _ _ _ _ _

theorem handleResponse_case (news : List String) (msg : BridgeMessage)
    (s : ServerState) : StepCase news s (handleResponse msg s) := by
  cases hlp : lookupPending s msg.id with
  | none =>
    have heq : handleResponse msg s = (s, []) := by
      unfold handleResponse
      rw [hlp]
    rw [heq]
    exact StepCase.quiet s [] rfl (by simp)
  | some p =>
    have hmem : msg.id ∈ pendingIds s := mem_fst_of_lookupAssoc_some hlp
    cases he : msg.error with
    | none =>
      have heq : handleResponse msg s
          = (deletePending s msg.id,
             [Output.settled msg.id (Outcome.resolved msg.result)]) := by
        unfold handleResponse
        rw [hlp, he]
      rw [heq]
      exact StepCase.one _ msg.id _ hmem rfl
    | some e =>
      by_cases h0 : e = ""
      · have heq : handleResponse msg s
            = (deletePending s msg.id,
               [Output.settled msg.id (Outcome.resolved msg.result)]) := by
          unfold handleResponse
          rw [hlp, he]
          simp [h0]
        rw [heq]
        exact StepCase.one _ msg.id _ hmem rfl
      · have heq : handleResponse msg s
            = (deletePending s msg.id,
               [Output.settled msg.id (Outcome.rejectedResponse e)]) := by
          unfold handleResponse
          rw [hlp, he]
          simp [h0]
        rw [heq]
        exact StepCase.one _ msg.id _ hmem rfl

theorem handleMessage_case (news : List String) (verify : String → Option String)
    (cid : String) (msg : BridgeMessage) (now : Nat) (s : ServerState) :
    StepCase news s (handleMessage verify cid msg now s) := by
  unfold handleMessage
  cases lookupConn s cid with
  | none => exact StepCase.quiet s [] rfl (by simp)
  | some c =>
    by_cases h1 : msg.action = "authenticate"
    · rw [if_pos h1]
      exact quiet_case_of _ _ _ (handleAuthenticate_pending _ _ _ _)
        (fun id o => handleAuthenticate_no_settled _ _ _ _ id o)
    · rw [if_neg h1]
      by_cases h2 : msg.action = "register_workspace"
      · rw [if_pos h2]
        exact quiet_case_of _ _ _ (handleRegisterWorkspace_pending _ _ _ _)
          (fun id o => handleRegisterWorkspace_no_settled _ _ _ _ id o)
      · rw [if_neg h2]
        by_cases h3 : msg.action = "response"
        · rw [if_pos h3]
          exact handleResponse_case _ _ _
        · rw [if_neg h3]
          by_cases h4 : msg.action = "ping"
          · rw [if_pos h4]
            exact quiet_case_of _ _ _ rfl
              (fun id o => settled_not_mem_sendToConnection _ _ _ id o)
          · rw [if_neg h4]
            by_cases h5 : msg.id ≠ "" ∧ (lookupPending s msg.id).isSome
            · rw [if_pos h5]
              exact handleResponse_case _ _ _
            · rw [if_neg h5]
              exact quiet_case_of _ _ _ rfl
                (fun id o => settled_not_mem_sendError _ _ _ _ id o)

theorem step_case (verify : String → Option String) (s : ServerState) (e : Event) :
    StepCase (sendIdsOf e) s (step verify s e) := by
  cases e with
  | connect cid now =>
    exact quiet_case_of _ _ _ rfl (by simp [step, handleConnection])
  | message cid msg now => exact handleMessage_case _ verify cid msg now s
  | pongEvt cid now => exact quiet_case_of _ _ _ rfl (by simp [step])
  | closeEvt cid =>
    exact StepCase.evictAll _ [] "Connection closed" rfl (by simp)
  | errorEvt cid =>
    exact StepCase.evictAll _ [] "Connection error" rfl (by simp)
  | socketDied cid => exact quiet_case_of _ _ _ rfl (by simp [step])
  | send w a params fid =>
    show StepCase _ s (sendToExtension w a params fid s)
    unfold sendToExtension
    cases s.connections.find? (fun p => p.2.workspaceId == w && p.2.isAuthenticated) with
    | none => exact quiet_case_of _ _ _ rfl (by simp)
    | some pc =>
      cases pc with
      | mk ccid c =>
        exact StepCase.add _ _ fid _ (by simp [sendIdsOf]) rfl
          (fun id o => settled_not_mem_sendToConnection _ _ _ id o)
  | timerFires id =>
    show StepCase _ s (onTimeout id s)
    cases hlp : lookupPending s id with
    | none =>
      have heq : onTimeout id s = (s, []) := by
        unfold onTimeout
        rw [hlp]
      rw [heq]
      exact StepCase.quiet s [] rfl (by simp)
    | some p =>
      have heq : onTimeout id s
          = (deletePending s id, [Output.settled id (Outcome.rejectedTimeout p.action)]) := by
        unfold onTimeout
        rw [hlp]
      rw [heq]
      exact StepCase.one _ id _ (mem_fst_of_lookupAssoc_some hlp) rfl
  | cleanupTick now =>
    show StepCase _ s (cleanupTick now s)
    unfold cleanupTick
    by_cases hd : ((s.connections.filter (isDead now)).map Prod.fst).isEmpty
    · rw [if_pos hd]
      exact quiet_case_of _ _ _ rfl
        (fun id o => settled_not_mem_tickFlatten now _ id o)
    · rw [if_neg hd]
      refine StepCase.evictAll _ _ "Connection terminated" rfl ?_
      exact fun id o => settled_not_mem_tickFlatten now _ id o

theorem StepCase.settled_mem {news : List String} {s : ServerState}
    {r : ServerState × List Output} (h : StepCase news s r) {id : String} {o : Outcome}
    (hm : Output.settled id o ∈ r.2) : id ∈ pendingIds s := by
  cases h with
  | quiet s' outs hp ho => exact absurd hm (ho id o)
  | one s' j o' hmem hp =>
    simp only [List.mem_singleton] at hm
    injection hm with h1 h2
    exact h1 ▸ hmem
  | evictAll s' pre reason hp hpre =>
    rw [List.mem_append] at hm
    cases hm with
    | inl h1 => exact absurd h1 (hpre id o)
    | inr h2 =>
      rw [List.mem_map] at h2
      obtain ⟨q, hq, he⟩ := h2
      injection he with h1 h2
      exact h1 ▸ List.mem_map_of_mem Prod.fst hq
  | add s' outs fid entry hfid hp ho => exact absurd hm (ho id o)

theorem StepCase.settled_gone {news : List String} {s : ServerState}
    {r : ServerState × List Output} (h : StepCase news s r) {id : String} {o : Outcome}
    (hm : Output.settled id o ∈ r.2) : id ∉ pendingIds r.1 := by
  cases h with
  | quiet s' outs hp ho => exact absurd hm (ho id o)
  | one s' j o' hmem hp =>
    simp only [List.mem_singleton] at hm
    injection hm with h1 h2
    subst h1
    show id ∉ s'.pendingRequests.map Prod.fst
    rw [hp]
    intro hc
    exact ((delAssoc_fst_mem _ _ _).mp hc).2 rfl
  | evictAll s' pre reason hp hpre =>
    show id ∉ s'.pendingRequests.map Prod.fst
    rw [hp]
    simp
  | add s' outs fid entry hfid hp ho => exact absurd hm (ho id o)

theorem StepCase.pending_sub {news : List String} {s : ServerState}
    {r : ServerState × List Output} (h : StepCase news s r) :
    ∀ j ∈ pendingIds r.1, j ∈ pendingIds s ∨ j ∈ news := by
  cases h with
  | quiet s' outs hp ho =>
    intro j hj
    left
    show j ∈ s.pendingRequests.map Prod.fst
    rw [← hp]
    exact hj
  | one s' id o hmem hp =>
    intro j hj
    left
    replace hj : j ∈ s'.pendingRequests.map Prod.fst := hj
    rw [hp] at hj
    exact ((delAssoc_fst_mem _ _ _).mp hj).1
  | evictAll s' pre reason hp hpre =>
    intro j hj
    replace hj : j ∈ s'.pendingRequests.map Prod.fst := hj
    rw [hp] at hj
    simp at hj
  | add s' outs fid entry hfid hp ho =>
    intro j hj
    replace hj : j ∈ s'.pendingRequests.map Prod.fst := hj
    rw [hp, setAssoc_fst] at hj
    by_cases hc : s.pendingRequests.any (fun p => p.1 == fid)
    · rw [if_pos hc] at hj
      left
      exact hj
    · rw [if_neg hc] at hj
      rw [List.mem_append] at hj
      cases hj with
      | inl h1 =>
        left
        exact h1
      | inr h2 =>
        right
        simp only [List.mem_singleton] at h2
        exact h2 ▸ hfid

theorem StepCase.count_le_one {news : List String} {s : ServerState}
    {r : ServerState × List Output} (hWF : WF s) (h : StepCase news s r) (id : String) :
    settleCount id r.2 ≤ 1 := by
  cases h with
  | quiet s' outs hp ho =>
    show settleCount id outs ≤ 1
    have hz : settleCount id outs = 0 := settleCount_eq_zero (fun o => ho id o)
    omega
  | one s' j o hmem hp =>
    exact (List.countP_le_length _).trans (by simp)
  | evictAll s' pre reason hp hpre =>
    rw [settleCount_append]
    have h1 : settleCount id pre = 0 := settleCount_eq_zero (fun o => hpre id o)
    have h2 : settleCount id (s.pendingRequests.map
        (fun q => Output.settled q.1 (Outcome.rejectedConnection reason))) ≤ 1 := by
      have e1 : settleCount id (s.pendingRequests.map
          (fun q => Output.settled q.1 (Outcome.rejectedConnection reason)))
          = s.pendingRequests.countP (fun q => q.1 == id) := by
        rw [settleCount, List.countP_map]
        rfl
      have e2 : s.pendingRequests.countP (fun q => q.1 == id)
          = (s.pendingRequests.map Prod.fst).count id := by
        rw [List.count, List.countP_map]
        rfl
      rw [e1, e2]
      exact List.nodup_iff_count_le_one.mp hWF id
    omega
  | add s' outs fid entry hfid hp ho =>
    show settleCount id outs ≤ 1
    have hz : settleCount id outs = 0 := settleCount_eq_zero (fun o => ho id o)
    omega

theorem StepCase.preserves_WF {news : List String} {s : ServerState}
    {r : ServerState × List Output} (h : StepCase news s r) (hWF : WF s)
    (hnews : ∀ j ∈ news, j ∉ pendingIds s) : WF r.1 := by
  cases h with
  | quiet s' outs hp ho =>
    show (s'.pendingRequests.map Prod.fst).Nodup
    rw [hp]
    exact hWF
  | one s' id o hmem hp =>
    show (s'.pendingRequests.map Prod.fst).Nodup
    rw [hp]
    exact delAssoc_fst_nodup _ _ hWF
  | evictAll s' pre reason hp hpre =>
    show (s'.pendingRequests.map Prod.fst).Nodup
    rw [hp]
    simp
  | add s' outs fid entry hfid hp ho =>
    show (s'.pendingRequests.map Prod.fst).Nodup
    rw [hp, setAssoc_fst]
    by_cases hc : s.pendingRequests.any (fun p => p.1 == fid)
    · rw [if_pos hc]
      exact hWF
    · rw [if_neg hc]
      rw [List.nodup_append]
      refine ⟨hWF, List.nodup_singleton _, ?_⟩
      intro a ha hb
      simp only [List.mem_singleton] at hb
      exact hnews fid hfid (hb ▸ ha)

theorem sendIds_cons (e : Event) (es : List Event) :
    sendIds (e :: es) = sendIdsOf e ++ sendIds es := by
  simp [sendIds]

theorem run_cons (verify : String → Option String) (s : ServerState) (e : Event)
    (es : List Event) :
    run verify s (e :: es)
      = ((run verify (step verify s e).1 es).1,
         (step verify s e).2 ++ (run verify (step verify s e).1 es).2) := rfl

/-- Once an id is absent from the table and not among the trace's fresh
ids, no later step settles it. -/
theorem run_settle_zero (verify : String → Option String) (es : List Event) :
    ∀ s : ServerState, ∀ id : String, id ∉ pendingIds s → id ∉ sendIds es →
    settleCount id (run verify s es).2 = 0 := by
  induction es with
  | nil =>
    intro s id h1 h2
    simp [run, settleCount]
  | cons e es ih =>
    intro s id h1 h2
    rw [run_cons, settleCount_append]
    rw [sendIds_cons] at h2
    have h2a : id ∉ sendIdsOf e := fun hc => h2 (List.mem_append_left _ hc)
    have h2b : id ∉ sendIds es := fun hc => h2 (List.mem_append_right _ hc)
    have hc := step_case verify s e
    have hz1 : settleCount id (step verify s e).2 = 0 := by
      apply settleCount_eq_zero
      intro o hm
      exact h1 (hc.settled_mem hm)
    have hz2 : settleCount id (run verify (step verify s e).1 es).2 = 0 := by
      apply ih
      · intro hmem
        cases hc.pending_sub id hmem with
        | inl hl => exact h1 hl
        | inr hr => exact h2a hr
      · exact h2b
    omega

/-- Along any trace with fresh request ids, each pending-call id is settled
at most once. -/
theorem run_settle_le_one (verify : String → Option String) (es : List Event) :
    ∀ s : ServerState, WF s → FreshIds s es →
    ∀ id : String, settleCount id (run verify s es).2 ≤ 1 := by
  induction es with
  | nil =>
    intro s hWF hF id
    simp [run, settleCount]
  | cons e es ih =>
    intro s hWF hF id
    obtain ⟨hnd, hdisj⟩ := hF
    rw [sendIds_cons] at hnd hdisj
    have hndOf : (sendIdsOf e).Nodup := hnd.of_append_left
    have hndEs : (sendIds es).Nodup := hnd.of_append_right
    have hsep : ∀ j ∈ sendIdsOf e, j ∉ sendIds es := fun j hj =>
      (List.disjoint_of_nodup_append hnd) hj
    have hdisjOf : ∀ j ∈ sendIdsOf e, j ∉ pendingIds s := fun j hj =>
      hdisj j (List.mem_append_left _ hj)
    have hdisjEs : ∀ j ∈ sendIds es, j ∉ pendingIds s := fun j hj =>
      hdisj j (List.mem_append_right _ hj)
    have hc := step_case verify s e
    have hWF2 : WF (step verify s e).1 := hc.preserves_WF hWF hdisjOf
    have hF2 : FreshIds (step verify s e).1 es := by
      refine ⟨hndEs, ?_⟩
      intro j hj hmem
      cases hc.pending_sub j hmem with
      | inl hl => exact hdisjEs j hj hl
      | inr hr => exact hsep j hr hj
    rw [run_cons, settleCount_append]
    by_cases hz : settleCount id (step verify s e).2 = 0
    · have := ih (step verify s e).1 hWF2 hF2 id
      omega
    · have hpos : 0 < settleCount id (step verify s e).2 := Nat.pos_of_ne_zero hz
      obtain ⟨o, hmo⟩ := settled_mem_of_settleCount_pos hpos
      have h1 : settleCount id (step verify s e).2 ≤ 1 := hc.count_le_one hWF id
      have hz2 : settleCount id (run verify (step verify s e).1 es).2 = 0 := by
        apply run_settle_zero
        · exact hc.settled_gone hmo
        · intro hmem
          exact hdisjEs id hmem (hc.settled_mem hmo)
      omega

theorem nodup_keys_mem_unique {α : Type} {l : List (String × α)}
    (h : (l.map Prod.fst).Nodup) {k : String} {a b : α}
    (ha : (k, a) ∈ l) (hb : (k, b) ∈ l) : a = b := by
  induction l with
  | nil => cases ha
  | cons p t ih =>
    rw [List.map_cons, List.nodup_cons] at h
    cases ha with
    | head =>
      cases hb with
      | head => rfl
      | tail _ hb2 =>
        exact absurd (List.mem_map_of_mem Prod.fst hb2) h.1
    | tail _ ha2 =>
      cases hb with
      | head => exact absurd (List.mem_map_of_mem Prod.fst ha2) h.1
      | tail _ hb2 => exact ih h.2 ha2 hb2

theorem getLast?_map_eq {α β : Type} (f : α → β) (l : List α) :
    (l.map f).getLast? = l.getLast?.map f := by
  induction l with
  | nil => rfl
  | cons a t ih =>
    cases t with
    | nil => rfl
    | cons b t2 =>
      rw [List.map_cons, List.map_cons, List.getLast?_cons_cons, List.getLast?_cons_cons,
        ← List.map_cons]
      exact ih

theorem mem_of_getLast?_eq {α : Type} :
    ∀ {l : List α} {x : α}, l.getLast? = some x → x ∈ l := by
  intro l
  induction l with
  | nil => intro x h; cases h
  | cons a t ih =>
    intro x h
    cases t with
    | nil =>
      rw [List.getLast?_singleton] at h
      injection h with h1
      rw [← h1]
      exact List.mem_singleton_self a
    | cons b t2 =>
      rw [List.getLast?_cons_cons] at h
      exact List.mem_cons_of_mem a (ih h)

theorem pairwise_rel_getLast {α : Type} {R : α → α → Prop} (hrefl : ∀ a : α, R a a) :
    ∀ {l : List α} {x : α}, l.Pairwise R → l.getLast? = some x →
    ∀ y ∈ l, R y x := by
  intro l
  induction l with
  | nil => intro x _ h; cases h
  | cons a t ih =>
    intro x hp hl y hy
    rw [List.pairwise_cons] at hp
    cases t with
    | nil =>
      rw [List.getLast?_singleton] at hl
      injection hl with h1
      rw [List.mem_singleton] at hy
      rw [hy, h1]
      exact hrefl x
    | cons b t2 =>
      rw [List.getLast?_cons_cons] at hl
      cases List.mem_cons.mp hy with
      | inl h =>
        rw [h]
        exact hp.1 x (mem_of_getLast?_eq hl)
      | inr h => exact ih hp.2 hl y h

theorem lookupAssoc_update {α : Type} (l : List (String × α)) (k : String) (f : α → α) :
    lookupAssoc (l.map (fun p => if p.1 == k then (p.1, f p.2) else p)) k
      = (lookupAssoc l k).map f := by
  induction l with
  | nil => rfl
  | cons p t ih =>
    rw [List.map_cons, lookupAssoc_cons, lookupAssoc_cons]
    by_cases h : p.1 = k
    · simp [h]
    · simpa [h] using ih

theorem lookupConn_updateConn (s : ServerState) (cid : String) (f : Conn → Conn) :
    lookupConn (updateConn s cid f) cid = (lookupConn s cid).map f :=
  lookupAssoc_update s.connections cid f

theorem handleResponse_no_timeout (msg : BridgeMessage) (s : ServerState)
    (j a : String) :
    Output.settled j (Outcome.rejectedTimeout a) ∉ (handleResponse msg s).2 := by
  unfold handleResponse
  (repeat' split) <;> simp

theorem handleMessage_no_timeout (verify : String → Option String) (cid : String)
    (msg : BridgeMessage) (now : Nat) (s : ServerState) (j a : String) :
    Output.settled j (Outcome.rejectedTimeout a) ∉ (handleMessage verify cid msg now s).2 := by
  unfold handleMessage
  (repeat' split) <;>
    solve
      | simp
      | exact handleAuthenticate_no_settled _ _ _ _ _ _
      | exact handleRegisterWorkspace_no_settled _ _ _ _ _ _
      | exact handleResponse_no_timeout _ _ _ _
      | exact settled_not_mem_sendToConnection _ _ _ _ _

theorem timeout_only_from_timer (verify : String → Option String) (s' : ServerState)
    (e : Event) (j a : String)
    (hm : Output.settled j (Outcome.rejectedTimeout a) ∈ (step verify s' e).2) :
    e = Event.timerFires j := by
  cases e with
  | connect cid now => simp [step, handleConnection] at hm
  | message cid msg now =>
    exact absurd hm (handleMessage_no_timeout verify cid msg now s' j a)
  | pongEvt cid now => simp [step] at hm
  | closeEvt cid =>
    exfalso
    replace hm : Output.settled j (Outcome.rejectedTimeout a)
        ∈ (rejectPendingRequests "Connection closed" (deleteConn s' cid)).2 := hm
    unfold rejectPendingRequests at hm
    simp at hm
  | errorEvt cid =>
    exfalso
    replace hm : Output.settled j (Outcome.rejectedTimeout a)
        ∈ (rejectPendingRequests "Connection error" (deleteConn s' cid)).2 := hm
    unfold rejectPendingRequests at hm
    simp at hm
  | socketDied cid => simp [step] at hm
  | send w act params fid =>
    exfalso
    revert hm
    show Output.settled j (Outcome.rejectedTimeout a) ∉ (sendToExtension w act params fid s').2
    unfold sendToExtension
    (repeat' split) <;>
      solve
        | simp
        | exact settled_not_mem_sendToConnection _ _ _ _ _
  | timerFires i =>
    have hji : j = i := by
      cases hlp : lookupPending s' i with
      | none =>
        have heq : onTimeout i s' = (s', []) := by
          unfold onTimeout
          rw [hlp]
        rw [show step verify s' (Event.timerFires i) = onTimeout i s' from rfl, heq] at hm
        simp at hm
      | some p =>
        have heq : onTimeout i s'
            = (deletePending s' i, [Output.settled i (Outcome.rejectedTimeout p.action)]) := by
          unfold onTimeout
          rw [hlp]
        rw [show step verify s' (Event.timerFires i) = onTimeout i s' from rfl, heq] at hm
        simp only [List.mem_singleton] at hm
        injection hm with h1 h2
    rw [hji]
  | cleanupTick now =>
    exfalso
    revert hm
    show Output.settled j (Outcome.rejectedTimeout a) ∉ (cleanupTick now s').2
    unfold cleanupTick
    split
    · exact settled_not_mem_tickFlatten _ _ _ _
    · intro hmem
      rw [List.mem_append] at hmem
      cases hmem with
      | inl h1 => exact settled_not_mem_tickFlatten _ _ _ _ h1
      | inr h2 => simp at h2

theorem clientRun_cons (stepF : ClientState → ClientEvent → ClientState × List ClientOut)
    (s : ClientState) (e : ClientEvent) (es : List ClientEvent) :
    clientRun stepF s (e :: es)
      = ((clientRun stepF (stepF s e).1 es).1,
         (stepF s e).2 ++ (clientRun stepF (stepF s e).1 es).2) := rfl

/-- Characterization of the `main.js` client over a run of consecutive
failed attempts starting with attempt counter `a` and the matching delay:
the first `min n (10 - a)` close events each schedule a reconnect with the
next delay of the doubling sequence; every further close only reports
give-up and schedules nothing. -/
theorem mainRun_consecutive_failures (n : Nat) :
    ∀ (a : Nat) (c : Bool),
    (clientRun mainStep
        { connected := c, reconnectAttempts := a, reconnectDelay := mainDelays a }
        (List.replicate n ClientEvent.closed)).2
      = ((List.range (min n (10 - a))).map
            (fun k => ClientOut.scheduled (mainDelays (a + k))))
        ++ List.replicate (n - (10 - a)) ClientOut.gaveUp := by
  induction n with
  | zero => intro a c; simp [clientRun]
  | succ n ih =>
    intro a c
    by_cases ha : a < 10
    · have hstep : mainStep
          { connected := c, reconnectAttempts := a, reconnectDelay := mainDelays a }
          ClientEvent.closed
          = ({ connected := false, reconnectAttempts := a + 1,
               reconnectDelay := mainDelays (a + 1) },
             [ClientOut.scheduled (mainDelays a)]) := by
        unfold mainStep
        rw [if_pos ha]
        rfl
      rw [List.replicate_succ, clientRun_cons, hstep]
      have hih := ih (a + 1) false
      rw [hih]
      have hm : 10 - a = (10 - (a + 1)) + 1 := by omega
      have hmin : min (n + 1) ((10 - (a + 1)) + 1) = min n (10 - (a + 1)) + 1 := by omega
      have hrep : (n + 1) - ((10 - (a + 1)) + 1) = n - (10 - (a + 1)) := by omega
      have hmap : List.map ((fun k => ClientOut.scheduled (mainDelays (a + k))) ∘ Nat.succ)
            (List.range (min n (10 - (a + 1))))
          = List.map (fun k => ClientOut.scheduled (mainDelays (a + 1 + k)))
            (List.range (min n (10 - (a + 1)))) := by
        apply List.map_congr_left
        intro k _
        have hak : a + Nat.succ k = a + 1 + k := by omega
        simp [Function.comp, hak]
      rw [hm, hmin, List.range_succ_eq_map, List.map_cons, List.map_map, hmap, hrep]
      simp
    · have hstep : mainStep
          { connected := c, reconnectAttempts := a, reconnectDelay := mainDelays a }
          ClientEvent.closed
          = ({ connected := false, reconnectAttempts := a,
               reconnectDelay := mainDelays a },
             [ClientOut.gaveUp]) := by
        unfold mainStep
        rw [if_neg ha]
      rw [List.replicate_succ, clientRun_cons, hstep]
      rw [ih a false]
      have h10 : 10 - a = 0 := by omega
      rw [h10]
      simp [List.replicate_succ]

theorem mainDelays_succ (k : Nat) : mainDelays (k + 1) = min (mainDelays k * 2) 30000 := rfl

theorem mainDelays_le_cap (k : Nat) : mainDelays k ≤ 30000 := by
  cases k with
  | zero => decide
  | succ k =>
    rw [mainDelays_succ]
    omega

theorem mainDelays_mono (k : Nat) : mainDelays k ≤ mainDelays (k + 1) := by
  have hc := mainDelays_le_cap k
  rw [mainDelays_succ]
  omega

/-! ## The claims -/

/-- C1: For every pending call id, at most one settlement occurs along any
trace whose generated request ids are fresh; every settlement output is one
of the three `Outcome` settlement sites (response / timeout / connection
eviction) by construction; and a settlement attempt for an id that is no
longer in the table — for example a response racing an already-fired
timeout — is a silent no-op: `handleResponse` leaves the state unchanged,
emits nothing, and does not raise. -/
theorem pending_call_at_most_one_settlement (verify : String → Option String)
    (s : ServerState) (es : List Event) (hWF : WF s) (hF : FreshIds s es) :
    (∀ id, settleCount id (run verify s es).2 ≤ 1) ∧
    (∀ msg : BridgeMessage, msg.id ∉ pendingIds s → handleResponse msg s = (s, [])) := by
  constructor
  · exact run_settle_le_one verify es s hWF hF
  · intro msg hmsg
    have hnone : lookupPending s msg.id = none := (lookupPending_none_iff s msg.id).mpr hmsg
    unfold handleResponse
    rw [hnone]

theorem pending_call_at_most_one_settlement_witness :
    WF sEmpty ∧ FreshIds sEmpty demoTrace ∧
    settleCount "r1" (run verifyDemo sEmpty demoTrace).2 ≤ 1 :=
  ⟨by decide, by decide,
   (pending_call_at_most_one_settlement verifyDemo sEmpty demoTrace (by decide)
      (by decide)).1 "r1"⟩

/-- C2 (code bug): removing connection `A` settles every pending call —
including `p2`, targeted at workspace `ws-b`, whose connection `B` is
still registered and live — and empties the whole table, because
`rejectPendingRequests` never consults its connection argument (its own
comment says the per-connection check is missing). -/
theorem close_evt_rejects_unrelated_pending :
    (step verifyDemo sTwo (Event.closeEvt "A")).2
      = [Output.settled "p1" (Outcome.rejectedConnection "Connection closed"),
         Output.settled "p2" (Outcome.rejectedConnection "Connection closed")] ∧
    (step verifyDemo sTwo (Event.closeEvt "A")).1.pendingRequests = [] ∧
    lookupConn (step verifyDemo sTwo (Event.closeEvt "A")).1 "B" = some connB ∧
    pB.targetWorkspace = "ws-b" ∧ connB.workspaceId = "ws-b" := by decide

/-- C3: the armed timer of a still-pending call settles it with the
`Request timeout` rejection and removes its entry from the table in the
same step (no entry for the id remains); moreover a Timeout-site
settlement can only be produced by a timer-expiry step — no other event of
the system fails a call with the timeout error. -/
theorem timeout_settles_and_removes (verify : String → Option String)
    (s : ServerState) (id : String) (p : Pending)
    (h : lookupPending s id = some p) :
    onTimeout id s
        = (deletePending s id, [Output.settled id (Outcome.rejectedTimeout p.action)]) ∧
    id ∉ pendingIds (onTimeout id s).1 ∧
    (∀ (s' : ServerState) (e : Event) (j a : String),
        Output.settled j (Outcome.rejectedTimeout a) ∈ (step verify s' e).2 →
        e = Event.timerFires j) := by
  have heq : onTimeout id s
      = (deletePending s id, [Output.settled id (Outcome.rejectedTimeout p.action)]) := by
    unfold onTimeout
    rw [h]
  refine ⟨heq, ?_, fun s' e j a hm => timeout_only_from_timer verify s' e j a hm⟩
  rw [heq]
  show id ∉ (delAssoc s.pendingRequests id).map Prod.fst
  intro hc
  exact ((delAssoc_fst_mem _ _ _).mp hc).2 rfl

theorem timeout_settles_and_removes_witness :
    lookupPending sTwo "p1" = some pA ∧
    onTimeout "p1" sTwo
      = (deletePending sTwo "p1", [Output.settled "p1" (Outcome.rejectedTimeout "echo")]) :=
  ⟨by decide, (timeout_settles_and_removes verifyDemo sTwo "p1" pA (by decide)).1⟩

/-- C4 (counterexample): in the `bridge.ts` variant of the Reconnecting
Client, two consecutive failed attempts schedule delays 2000 and 2000 —
the second delay does not double the first — and a successful open does
not reset the consecutive-attempt counter. -/
theorem bridge_client_fixed_delay_no_reset :
    (clientRun bridgeStep clientInit [ClientEvent.closed, ClientEvent.closed]).2
      = [ClientOut.scheduled 2000, ClientOut.scheduled 2000] ∧
    (2000 : Nat) ≠ min (2000 * 2) 30000 ∧
    (bridgeStep { connected := false, reconnectAttempts := 7, reconnectDelay := 2000 }
        ClientEvent.opened).1.reconnectAttempts = 7 := by decide

/-- C4 (amended, holds for the `main.js` client): starting right after a
successful open, `n` consecutive failures schedule exactly `min n 10`
reconnect attempts — so no more than 10 — whose delays follow the doubling
sequence `mainDelays`; that sequence doubles up to the 30000 ms cap, is
non-decreasing, never exceeds the cap, and a successful open resets the
delay to the 2000 ms base and the attempt counter to 0. -/
theorem main_client_backoff (n : Nat) (s : ClientState) :
    ((clientRun mainStep (mainStep s ClientEvent.opened).1
        (List.replicate n ClientEvent.closed)).2
      = ((List.range (min n 10)).map (fun k => ClientOut.scheduled (mainDelays k)))
        ++ List.replicate (n - 10) ClientOut.gaveUp) ∧
    (∀ k, mainDelays (k + 1) = min (mainDelays k * 2) 30000) ∧
    (∀ k, mainDelays k ≤ mainDelays (k + 1)) ∧
    (∀ k, mainDelays k ≤ 30000) ∧
    (mainStep s ClientEvent.opened).1.reconnectDelay = 2000 ∧
    (mainStep s ClientEvent.opened).1.reconnectAttempts = 0 := by
  refine ⟨?_, mainDelays_succ, mainDelays_mono, mainDelays_le_cap, rfl, rfl⟩
  have h := mainRun_consecutive_failures n 0 true
  simpa using h

/-- C5 (counterexample): after `crossTrace`, endpoint `E1` was registered
at time 10 and `E2` at time 20 > 10; both connections are authenticated
and live, yet the unaddressed selection returns `E1`, not the most
recently registered `E2` — selection follows connection-insertion order,
not registration recency. -/
theorem unaddressed_selection_ignores_registration_time :
    (lookupConn sCross "A").map Conn.workspaceId = some "E2" ∧
    (lookupConn sCross "A").map Conn.registeredAt = some (some 20) ∧
    (lookupConn sCross "A").map Conn.isAuthenticated = some true ∧
    (lookupConn sCross "B").map Conn.workspaceId = some "E1" ∧
    (lookupConn sCross "B").map Conn.registeredAt = some (some 10) ∧
    (lookupConn sCross "B").map Conn.isAuthenticated = some true ∧
    replitConnectTarget sCross none = some "E1" := by decide

/-- C5 (amended): the unaddressed `replit_connect` selection returns the
workspace of the *last* active record in connection-insertion order; when
registration times are monotone along that order (the normal flow, where
each client registers immediately after connecting), the selected record
is indeed one with maximal registration time. -/
theorem unaddressed_selection_last_active (s : ServerState) (cid : String) (c : Conn)
    (hlast : (activeConns s).getLast? = some (cid, c))
    (hmono : (activeConns s).Pairwise (fun p q => regTime p ≤ regTime q)) :
    replitConnectTarget s none = some c.workspaceId ∧
    ∀ q ∈ activeConns s, regTime q ≤ regTime (cid, c) := by
  constructor
  · have hne : ¬ (getActiveWorkspaces s).isEmpty = true := by
      intro hem
      rw [List.isEmpty_iff] at hem
      have : (cid, c) ∈ activeConns s := mem_of_getLast?_eq hlast
      have : c.workspaceId ∈ getActiveWorkspaces s :=
        List.mem_map_of_mem (fun p => p.2.workspaceId) this
      rw [hem] at this
      cases this
    unfold replitConnectTarget
    rw [if_neg hne]
    unfold getActiveWorkspaces
    rw [getLast?_map_eq, hlast]
    rfl
  · exact pairwise_rel_getLast (fun a => le_refl (regTime a)) hmono hlast

theorem unaddressed_selection_last_active_witness :
    ((activeConns sTwo).getLast? = some ("B", connB) ∧
     (activeConns sTwo).Pairwise (fun p q => regTime p ≤ regTime q)) ∧
    replitConnectTarget sTwo none = some connB.workspaceId :=
  ⟨⟨by decide, by decide⟩,
   (unaddressed_selection_last_active sTwo "B" connB (by decide) (by decide)).1⟩

/-- C6 (counterexample): a connection presenting an invalid credential gets
an error reply but is NOT closed: the server state is unchanged, the
record is still registered with `isOpen = true`, and the only output is
the error envelope. -/
theorem auth_failure_leaves_connection_open :
    (handleMessage verifyDemo "A" badAuthMsg 5 sOneUnauth).1 = sOneUnauth ∧
    (handleMessage verifyDemo "A" badAuthMsg 5 sOneUnauth).2
      = [Output.sent "A"
          { id := "m1", action := "error", error := some "Invalid authentication token" }] ∧
    lookupConn sOneUnauth "A" = some connU ∧
    connU.isOpen = true := by decide

/-- C6 (amended): on an invalid credential the router replies with the
`Invalid authentication token` error envelope and leaves the server state
— in particular the connection record — entirely unchanged; the connection
is reclaimed only later, by a transport event or heartbeat eviction. -/
theorem auth_failure_replies_error_keeps_connection
    (verify : String → Option String) (cid : String) (msg : BridgeMessage)
    (now : Nat) (s : ServerState) (c : Conn) (tok : String)
    (hc : lookupConn s cid = some c)
    (hact : msg.action = "authenticate")
    (htok : msg.paramsToken = some tok) (hne : tok ≠ "")
    (hbad : verify tok = none) :
    handleMessage verify cid msg now s
      = (s, sendError s cid "Invalid authentication token" msg.id) ∧
    lookupConn (handleMessage verify cid msg now s).1 cid = some c := by
  have h1 : handleMessage verify cid msg now s = handleAuthenticate verify cid msg s := by
    unfold handleMessage
    split
    · rename_i h0
      rw [h0] at hc
      cases hc
    · rw [if_pos hact]
  have h2 : handleAuthenticate verify cid msg s
      = (s, sendError s cid "Invalid authentication token" msg.id) := by
    unfold handleAuthenticate
    split
    · rename_i h0
      rw [h0] at hc
      cases hc
    · split
      · rename_i h0
        rw [h0] at htok
        cases htok
      · rename_i tok2 htok2
        rw [htok2] at htok
        injection htok with htok
        subst htok
        rw [if_neg hne]
        split
        · rename_i sub hsub
          rw [hsub] at hbad
          cases hbad
        · rfl
  rw [h1, h2]
  exact ⟨rfl, hc⟩

theorem auth_failure_replies_error_keeps_connection_witness :
    (lookupConn sOneUnauth "A" = some connU ∧ verifyDemo "bad-token" = none) ∧
    handleMessage verifyDemo "A" badAuthMsg 5 sOneUnauth
      = (sOneUnauth, sendError sOneUnauth "A" "Invalid authentication token" "m1") :=
  ⟨⟨by decide, by decide⟩,
   (auth_failure_replies_error_keeps_connection verifyDemo "A" badAuthMsg 5 sOneUnauth
      connU "bad-token" (by decide) (by decide) (by decide) (by decide) (by decide)).1⟩

/-- C7: a call addressed to an explicit workspace id with no authenticated
connection bound to it throws immediately: the state — in particular the
Pending-Call Table — is unchanged, so no pending entry is created, no
timer armed, and nothing waits for the call timeout. -/
theorem explicit_unreachable_fails_immediately (w a : String) (params : Option Value)
    (fid : String) (s : ServerState)
    (h : ∀ p ∈ s.connections, ¬(p.2.workspaceId = w ∧ p.2.isAuthenticated = true)) :
    sendToExtension w a params fid s
        = (s, [Output.threw ("No authenticated extension found for workspace: " ++ w)]) ∧
    (sendToExtension w a params fid s).1.pendingRequests = s.pendingRequests := by
  have hf : s.connections.find? (fun p => p.2.workspaceId == w && p.2.isAuthenticated)
      = none := by
    rw [List.find?_eq_none]
    intro p hp
    simp only [Bool.and_eq_true, beq_iff_eq, not_and]
    intro h1 h2
    exact h p hp ⟨h1, h2⟩
  have heq : sendToExtension w a params fid s
      = (s, [Output.threw ("No authenticated extension found for workspace: " ++ w)]) := by
    unfold sendToExtension
    rw [hf]
  exact ⟨heq, by rw [heq]⟩

theorem explicit_unreachable_fails_immediately_witness :
    (∀ p ∈ sTwo.connections,
        ¬(p.2.workspaceId = "ws-missing" ∧ p.2.isAuthenticated = true)) ∧
    sendToExtension "ws-missing" "echo" none "r9" sTwo
      = (sTwo,
         [Output.threw ("No authenticated extension found for workspace: " ++ "ws-missing")]) :=
  ⟨by decide,
   (explicit_unreachable_fails_immediately "ws-missing" "echo" none "r9" sTwo (by decide)).1⟩

/-- C8: on a heartbeat tick, every open connection whose last liveness is
more than 60000 ms (twice the 30000 ms interval) old is terminated and its
record removed from the registry, and every pending call — in particular
each of the evicted connection's — settles with the `Connection
terminated` rejection in that same tick; every other open connection is
sent a ping and remains registered. -/
theorem heartbeat_tick_evicts_stale_pings_fresh (now : Nat) (s : ServerState)
    (cid : String) (c : Conn)
    (hnd : (s.connections.map Prod.fst).Nodup)
    (hmem : (cid, c) ∈ s.connections) (hopen : c.isOpen = true) :
    (60000 < now - c.lastPing →
        Output.terminated cid ∈ (cleanupTick now s).2 ∧
        cid ∉ (cleanupTick now s).1.connections.map Prod.fst ∧
        (cleanupTick now s).1.pendingRequests = [] ∧
        (∀ q ∈ s.pendingRequests,
            Output.settled q.1 (Outcome.rejectedConnection "Connection terminated")
              ∈ (cleanupTick now s).2)) ∧
    (¬ 60000 < now - c.lastPing →
        Output.pinged cid ∈ (cleanupTick now s).2 ∧
        (cid, c) ∈ (cleanupTick now s).1.connections) := by
  constructor
  · intro hstale
    have hdead : isDead now (cid, c) = true := by
      simp [isDead, hstale]
    have hcm : cid ∈ (s.connections.filter (isDead now)).map Prod.fst :=
      List.mem_map_of_mem Prod.fst (List.mem_filter.mpr ⟨hmem, hdead⟩)
    have hni : ¬ ((s.connections.filter (isDead now)).map Prod.fst).isEmpty = true := by
      intro hem
      rw [List.isEmpty_iff] at hem
      rw [hem] at hcm
      cases hcm
    have heq : cleanupTick now s
        = ({ connections := s.connections.filter (fun p => !isDead now p),
             pendingRequests := [] },
           (s.connections.map (tickOutputs now)).flatten
             ++ s.pendingRequests.map
                 (fun q => Output.settled q.1
                   (Outcome.rejectedConnection "Connection terminated"))) := by
      unfold cleanupTick
      rw [if_neg hni]
    have hterm : Output.terminated cid ∈ (s.connections.map (tickOutputs now)).flatten := by
      rw [List.mem_flatten]
      refine ⟨tickOutputs now (cid, c), List.mem_map_of_mem _ hmem, ?_⟩
      simp [tickOutputs, hopen, hstale]
    refine ⟨?_, ?_, ?_, ?_⟩
    · rw [heq]
      exact List.mem_append_left _ hterm
    · rw [heq]
      intro hin
      rw [List.mem_map] at hin
      obtain ⟨p, hpf, hpe⟩ := hin
      rw [List.mem_filter] at hpf
      have hpc : p = (p.1, p.2) := rfl
      have hpmem : (cid, p.2) ∈ s.connections := by
        rw [← hpe]
        rw [hpc] at hpf
        exact hpf.1
      have hsnd : p.2 = c := nodup_keys_mem_unique hnd hpmem hmem
      have hp2 : p = (cid, c) := by
        rw [hpc, hpe, hsnd]
      have hdp : isDead now p = true := by
        rw [hp2]
        exact hdead
      rw [hdp] at hpf
      simp at hpf
    · rw [heq]
    · intro q hq
      rw [heq]
      apply List.mem_append_right
      exact List.mem_map_of_mem _ hq
  · intro hstale
    have hlive : isDead now (cid, c) = false := by
      simp [isDead, hopen, hstale]
    have hping : Output.pinged cid ∈ (s.connections.map (tickOutputs now)).flatten := by
      rw [List.mem_flatten]
      refine ⟨tickOutputs now (cid, c), List.mem_map_of_mem _ hmem, ?_⟩
      simp [tickOutputs, hopen, hstale]
    have hkeep : (cid, c) ∈ s.connections.filter (fun p => !isDead now p) := by
      rw [List.mem_filter]
      exact ⟨hmem, by rw [hlive]; rfl⟩
    constructor
    · unfold cleanupTick
      by_cases hni : ((s.connections.filter (isDead now)).map Prod.fst).isEmpty
      · rw [if_pos hni]
        exact hping
      · rw [if_neg hni]
        exact List.mem_append_left _ hping
    · unfold cleanupTick
      by_cases hni : ((s.connections.filter (isDead now)).map Prod.fst).isEmpty
      · rw [if_pos hni]
        exact hkeep
      · rw [if_neg hni]
        exact hkeep

theorem heartbeat_tick_evicts_stale_pings_fresh_witness :
    ((sTwo.connections.map Prod.fst).Nodup ∧ ("A", connA) ∈ sTwo.connections ∧
      connA.isOpen = true ∧ 60000 < 70000 - connA.lastPing) ∧
    (Output.terminated "A" ∈ (cleanupTick 70000 sTwo).2 ∧
     "A" ∉ (cleanupTick 70000 sTwo).1.connections.map Prod.fst ∧
     (cleanupTick 70000 sTwo).1.pendingRequests = [] ∧
     (∀ q ∈ sTwo.pendingRequests,
        Output.settled q.1 (Outcome.rejectedConnection "Connection terminated")
          ∈ (cleanupTick 70000 sTwo).2)) :=
  ⟨⟨by decide, by decide, by decide, by decide⟩,
   (heartbeat_tick_evicts_stale_pings_fresh 70000 sTwo "A" connA (by decide) (by decide)
      (by decide)).1 (by decide)⟩

/-- C9 (counterexample): the endpoint id of a connection is not set-once: a
second `register_workspace` on the same authenticated connection changes
the binding from `ws-a` to `ws-b`. -/
theorem register_workspace_rebinds :
    (lookupConn (handleMessage verifyDemo "A" regMsgA 1 sAuthNoWs).1 "A").map
        Conn.workspaceId = some "ws-a" ∧
    (lookupConn (handleMessage verifyDemo "A" regMsgB 2
        (handleMessage verifyDemo "A" regMsgA 1 sAuthNoWs).1).1 "A").map
        Conn.workspaceId = some "ws-b" := by decide

/-- C9 (amended): `register_workspace` on an authenticated connection with
a non-empty workspace id always overwrites the record's binding with the
new id (and refreshes the ghost registration time), regardless of any
previously bound value. -/
theorem register_workspace_overwrites_binding (cid : String) (msg : BridgeMessage)
    (now : Nat) (s : ServerState) (c : Conn) (w : String)
    (hc : lookupConn s cid = some c) (hauth : c.isAuthenticated = true)
    (hw : msg.paramsWorkspaceId = some w) (hne : w ≠ "") :
    lookupConn (handleRegisterWorkspace cid msg now s).1 cid
      = some { c with workspaceId := w, registeredAt := some now } := by
  have heq : (handleRegisterWorkspace cid msg now s).1
      = updateConn s cid (fun c0 => { c0 with workspaceId := w, registeredAt := some now }) := by
    unfold handleRegisterWorkspace
    split
    · rename_i h0
      rw [h0] at hc
      cases hc
    · rename_i c2 hc2
      rw [hc2] at hc
      injection hc with hcc
      subst hcc
      rw [if_neg (by simp [hauth])]
      split
      · rename_i h0
        rw [h0] at hw
        cases hw
      · rename_i w2 hw2
        rw [hw2] at hw
        injection hw with hww
        subst hww
        rw [if_neg hne]
  rw [heq, lookupConn_updateConn, hc]
  rfl

theorem register_workspace_overwrites_binding_witness :
    (lookupConn sTwo "A" = some connA ∧ connA.isAuthenticated = true) ∧
    lookupConn (handleRegisterWorkspace "A" regMsgB 9 sTwo).1 "A"
      = some { connA with workspaceId := "ws-b", registeredAt := some 9 } :=
  ⟨⟨by decide, by decide⟩,
   register_workspace_overwrites_binding "A" regMsgB 9 sTwo connA "ws-b" (by decide)
      (by decide) (by decide) (by decide)⟩

/-- C10: an inbound envelope whose action is none of the recognized kinds
but whose non-empty id matches a pending call is routed to
`handleResponse` and settles that call — resolving with its `result` when
the `error` field is falsy, rejecting with its non-empty `error` otherwise
— and the entry is removed; the only requirement on the sender is that its
connection is registered: authentication state and endpoint binding are
not consulted. -/
theorem unknown_action_with_pending_id_settles (verify : String → Option String)
    (cid : String) (msg : BridgeMessage) (now : Nat) (s : ServerState)
    (hconn : (lookupConn s cid).isSome)
    (ha1 : msg.action ≠ "authenticate") (ha2 : msg.action ≠ "register_workspace")
    (ha3 : msg.action ≠ "response") (ha4 : msg.action ≠ "ping")
    (hid : msg.id ≠ "") (hp : msg.id ∈ pendingIds s) :
    handleMessage verify cid msg now s = handleResponse msg s ∧
    (handleMessage verify cid msg now s).1.pendingRequests
        = delAssoc s.pendingRequests msg.id ∧
    (errTruthy msg.error = false →
        (handleMessage verify cid msg now s).2
          = [Output.settled msg.id (Outcome.resolved msg.result)]) ∧
    (∀ e, msg.error = some e → e ≠ "" →
        (handleMessage verify cid msg now s).2
          = [Output.settled msg.id (Outcome.rejectedResponse e)]) := by
  have hsome : (lookupPending s msg.id).isSome := (lookupPending_isSome_iff s msg.id).mpr hp
  obtain ⟨p, hlp⟩ := Option.isSome_iff_exists.mp hsome
  have heq : handleMessage verify cid msg now s = handleResponse msg s := by
    unfold handleMessage
    split
    · rename_i h0
      rw [h0] at hconn
      cases hconn
    · rw [if_neg ha1, if_neg ha2, if_neg ha3, if_neg ha4, if_pos ⟨hid, hsome⟩]
  refine ⟨heq, ?_, ?_, ?_⟩
  · rw [heq]
    cases he : msg.error with
    | none =>
      have h2 : handleResponse msg s
          = (deletePending s msg.id,
             [Output.settled msg.id (Outcome.resolved msg.result)]) := by
        unfold handleResponse
        rw [hlp, he]
      rw [h2]
      rfl
    | some e =>
      by_cases h0 : e = ""
      · have h2 : handleResponse msg s
            = (deletePending s msg.id,
               [Output.settled msg.id (Outcome.resolved msg.result)]) := by
          unfold handleResponse
          rw [hlp, he]
          simp [h0]
        rw [h2]
        rfl
      · have h2 : handleResponse msg s
            = (deletePending s msg.id,
               [Output.settled msg.id (Outcome.rejectedResponse e)]) := by
          unfold handleResponse
          rw [hlp, he]
          simp [h0]
        rw [h2]
        rfl
  · intro hfalse
    rw [heq]
    cases he : msg.error with
    | none =>
      unfold handleResponse
      rw [hlp, he]
    | some e =>
      have h0 : e = "" := by
        rw [he] at hfalse
        simpa [errTruthy] using hfalse
      unfold handleResponse
      rw [hlp, he]
      simp [h0]
  · intro e he h0
    rw [heq]
    unfold handleResponse
    rw [hlp, he]
    simp [h0]

theorem unknown_action_with_pending_id_settles_witness :
    ((lookupConn sUnauth "U").isSome ∧ connU.isAuthenticated = false ∧
      connU.workspaceId = "" ∧ "p1" ∈ pendingIds sUnauth) ∧
    handleMessage verifyDemo "U" bogusMsg 5 sUnauth = handleResponse bogusMsg sUnauth :=
  ⟨⟨by decide, by decide, by decide, by decide⟩,
   (unknown_action_with_pending_id_settles verifyDemo "U" bogusMsg 5 sUnauth (by decide)
      (by decide) (by decide) (by decide) (by decide) (by decide) (by decide)).1⟩
